import Mathlib

/-!
Verification of the traffic-notify-bot incident-tracking and
subscriber-access engine (`src/main.py`) against its specification.

Python dictionaries are embedded as association lists (`List (K × V)`),
with insertion-ordered update-in-place semantics matching CPython
dicts; Python chat ids are `Int`; coordinates, which the source holds as
Python floats and compares only with exact equality and `≤`, are
embedded as `ℚ`; the real-valued Web-Mercator formulas of
`latlon_to_tile` are embedded over `ℝ`.
-/

/-! ### Python dict primitives -/

/-- Key list of a dict in iteration order (`for k in d`). -/
def dictKeys {K V : Type} (m : List (K × V)) : List K := m.map Prod.fst

/-- `d.get(k)` / `d[k]`: the value stored at `k` (first occurrence;
dicts built by `dictUpsert` never hold a key twice). -/
def dictLookup {K V : Type} [DecidableEq K] (m : List (K × V)) (k : K) : Option V :=
  match m with
  | [] => none
  | p :: rest => if p.1 = k then some p.2 else dictLookup rest k

/-- `d.pop(k)` (the removal part): drop every entry stored at `k`. -/
def dictErase {K V : Type} [DecidableEq K] (m : List (K × V)) (k : K) : List (K × V) :=
  m.filter (fun p => decide (p.1 ≠ k))

/-- `d[k] = v`: CPython update-in-place when the key exists, append
otherwise. -/
def dictUpsert {K V : Type} [DecidableEq K] (m : List (K × V)) (k : K) (v : V) :
    List (K × V) :=
  if k ∈ dictKeys m then m.map (fun p => if p.1 = k then (k, v) else p)
  else m ++ [(k, v)]

/-! ### Subscriber registry (`USERS`, `PENDING`, `KNOWN_USERS`) -/

/-- The three persisted registries: `USERS` (approved chat ids, a JSON
list), `PENDING` (handle → chat id), `KNOWN_USERS` (handle → chat id). -/
structure RegistryState where
  users : List Int
  pending : List (String × Int)
  known : List (String × Int)
deriving DecidableEq, Repr

/-- `normalize_username`: strip every leading `@`, lowercase
(`u.lstrip("@").lower()`; `None`/empty input handled by callers). -/
def normalize_username (u : String) : String :=
  String.mk ((u.toList.dropWhile (fun c => c == '@')).map Char.toLower)

/-- Outcome of `approve_user` / `deny_user` (the returned boolean:
`False` carries the "Пользователь не в списке ожидания." message). -/
inductive RegOutcome where
  | success
  | notPending
deriving DecidableEq, Repr

/-- `approve_user` (src/main.py:291-307), state part: if the normalized
handle is not in `PENDING` fail; otherwise pop it, append its chat id
to `USERS` unless already present, and succeed. -/
def approve_user (username : String) (s : RegistryState) : RegOutcome × RegistryState :=
  let un := normalize_username username
  match dictLookup s.pending un with
  | none => (.notPending, s)
  | some chat_id =>
    let users2 := if chat_id ∈ s.users then s.users else s.users ++ [chat_id]
    (.success, { s with pending := dictErase s.pending un, users := users2 })

/-- `deny_user` (src/main.py:309-323), state part: if the normalized
handle is not in `PENDING` fail; otherwise pop it and succeed;
`USERS` is untouched. -/
def deny_user (username : String) (s : RegistryState) : RegOutcome × RegistryState :=
  let un := normalize_username username
  match dictLookup s.pending un with
  | none => (.notPending, s)
  | some _ => (.success, { s with pending := dictErase s.pending un })

/-- Reply sent by `cmd_start` (src/main.py:187-223). -/
inductive StartResult where
  | alreadySubscribed
  | alreadyQueued
  | submitted
  | submittedNoAdmin
deriving DecidableEq, Repr

/-- The display name `cmd_start` uses:
`normalize_username(user.username) or f"user_{chat_id}"`. -/
def startName (username0 : Option String) (chat_id : Int) : String :=
  let n := match username0 with
    | none => ""
    | some u => normalize_username u
  if n = "" then "user_" ++ toString chat_id else n

/-- `cmd_start` (src/main.py:187-223), state part. `KNOWN_USERS` is
upserted first, unconditionally; then the already-subscribed and
already-queued checks; otherwise the handle is queued in `PENDING`.
`adminChat` is `get_admin_chat_id()`'s result; a falsy (0) admin id only
changes the reply, not the state. -/
def cmd_start (username0 : Option String) (chat_id : Int) (adminChat : Option Int)
    (s : RegistryState) : StartResult × RegistryState :=
  let username := startName username0 chat_id
  let s1 : RegistryState := { s with known := dictUpsert s.known username chat_id }
  if chat_id ∈ s1.users then (.alreadySubscribed, s1)
  else if username ∈ dictKeys s1.pending then (.alreadyQueued, s1)
  else
    let s2 : RegistryState := { s1 with pending := dictUpsert s1.pending username chat_id }
    match adminChat with
    | some a => if a = 0 then (.submittedNoAdmin, s2) else (.submitted, s2)
    | none => (.submittedNoAdmin, s2)

/-- Reply sent by `cmd_revoke` (src/main.py:379-400). -/
inductive RevokeResult where
  | unknownHandle
  | revoked
  | notSubscribed
deriving DecidableEq, Repr

/-- `cmd_revoke` (src/main.py:379-400), state part (admin gate and
argument parsing live in the transport layer above it). Note the
source's `if not chat_id:` is Python truthiness: a recorded chat id of
`0` is reported as unknown exactly like an absent handle. -/
def cmd_revoke (username : String) (s : RegistryState) : RevokeResult × RegistryState :=
  let un := normalize_username username
  match dictLookup s.known un with
  | none => (.unknownHandle, s)
  | some chat_id =>
    if chat_id = 0 then (.unknownHandle, s)
    else if chat_id ∈ s.users then (.revoked, { s with users := s.users.erase chat_id })
    else (.notSubscribed, s)

/-! ### Administrator assignment (`ADMIN_CHAT_ID`, `cmd_set_me_as_admin`) -/

/-- The value of the `ADMIN_CHAT_ID` global: either the raw environment
string loaded at startup or the chat id assigned by
`cmd_set_me_as_admin` during this run. -/
inductive AdminVal where
  | fromEnv (raw : String)
  | assigned (chatId : Int)
deriving DecidableEq, Repr

/-- Reply sent by `cmd_set_me_as_admin` (src/main.py:166-185). -/
inductive AdminReply where
  | alreadyAssigned
  | needUsername
  | nowAdmin
deriving DecidableEq, Repr

/-- `cmd_set_me_as_admin` (src/main.py:166-185): a no-op when
`ADMIN_CHAT_ID is not None`; otherwise requires a username and then
stores the caller's chat id (in the global and in `.env`). -/
def cmd_set_me_as_admin (chat_id : Int) (username : Option String)
    (admin : Option AdminVal) : AdminReply × Option AdminVal :=
  match admin with
  | some a => (.alreadyAssigned, some a)
  | none =>
    match username with
    | none => (.needUsername, none)
    | some _ => (.nowAdmin, some (.assigned chat_id))

/-- One `cmd_set_me_as_admin` invocation viewed as a transition of the
admin state (the only code path of the run that writes
`ADMIN_CHAT_ID`). -/
def adminStep (st : Option AdminVal) (call : Int × Option String) : Option AdminVal :=
  (cmd_set_me_as_admin call.1 call.2 st).2

/-! ### Current-incidents query (`cmd_actual`) -/

/-- Reply sent by `cmd_actual` (src/main.py:225-239). -/
inductive ActualReply where
  | accessPrompt
  | emptyArea
  | listing (entries : List ((ℚ × ℚ) × String))
deriving DecidableEq, Repr

/-- `cmd_actual` (src/main.py:225-239): non-approved callers get the
access-request prompt; approved callers get the current incident
listing (or the empty-area message). The function mutates nothing, so
the registry and the live incident set are returned unchanged. -/
def cmd_actual (chat_id : Int) (s : RegistryState)
    (current : List ((ℚ × ℚ) × String)) :
    ActualReply × RegistryState × List ((ℚ × ℚ) × String) :=
  if chat_id ∈ s.users then
    if current = [] then (.emptyArea, s, current)
    else (.listing current, s, current)
  else (.accessPrompt, s, current)

/-! ### Incident extraction (`extract_accidents`) -/

/-- One raw feature of a tile. A `none` field stands for a missing or
wrongly-typed field whose access in the source raises (`KeyError`,
unpack `ValueError`, comparison `TypeError`, ...). -/
structure RawFeature where
  eventType : Option Int
  coords : Option (ℚ × ℚ)
  description : Option String
deriving DecidableEq, Repr

/-- A tile payload as seen by `extract_accidents`: either a JSON value
on which the `data.get("data", {}).get("features", [])` access raises,
or a (possibly empty) feature list. -/
inductive TilePayload where
  | malformed
  | payload (features : List RawFeature)
deriving DecidableEq, Repr

/-- A feature on which `extract_accidents` accesses no missing field. -/
def wellFormed (f : RawFeature) : Prop :=
  f.eventType.isSome ∧ f.coords.isSome ∧ f.description.isSome

instance (f : RawFeature) : Decidable (wellFormed f) := by
  unfold wellFormed; infer_instance

/-- The feature loop of `extract_accidents` (src/main.py:140-147) with
the accumulated dict `acc`. The enclosing `try` wraps the WHOLE loop:
the first field access that raises ends the loop, and the dict
accumulated so far is returned. Field access order follows the source:
`eventType`, then (only for accidents) `coordinates`, then (only in
bounds) `description`. -/
def extractLoop (lat_min lon_min lat_max lon_max : ℚ)
    (acc : List ((ℚ × ℚ) × String)) : List RawFeature → List ((ℚ × ℚ) × String)
  | [] => acc
  | f :: rest =>
    match f.eventType with
    | none => acc
    | some et =>
      if et = 1 then
        match f.coords with
        | none => acc
        | some c =>
          if lat_min ≤ c.1 ∧ c.1 ≤ lat_max ∧ lon_min ≤ c.2 ∧ c.2 ≤ lon_max then
            match f.description with
            | none => acc
            | some d =>
              extractLoop lat_min lon_min lat_max lon_max (dictUpsert acc c d) rest
          else extractLoop lat_min lon_min lat_max lon_max acc rest
      else extractLoop lat_min lon_min lat_max lon_max acc rest

/-- `extract_accidents` (src/main.py:135-150): filter a tile's features
to in-bounds accidents, keyed by `(lat, lon)`; any raise is caught and
the dict built so far is returned. -/
def extract_accidents (data : TilePayload) (lat_min lon_min lat_max lon_max : ℚ) :
    List ((ℚ × ℚ) × String) :=
  match data with
  | .malformed => []
  | .payload fs => extractLoop lat_min lon_min lat_max lon_max [] fs

/-- The entry a single feature contributes according to the spec's
extractor contract: accident event type (tag 1) and coordinates inside
the inclusive bounding box. -/
def specEntry (lat_min lon_min lat_max lon_max : ℚ) (f : RawFeature) :
    Option ((ℚ × ℚ) × String) :=
  match f.eventType, f.coords, f.description with
  | some et, some c, some d =>
    if et = 1 ∧ lat_min ≤ c.1 ∧ c.1 ≤ lat_max ∧ lon_min ≤ c.2 ∧ c.2 ≤ lon_max then
      some (c, d)
    else none
  | _, _, _ => none

/-- The mapping the spec's extractor contract prescribes for a feature
list: exactly the in-bounds accident entries. -/
def specExtract (lat_min lon_min lat_max lon_max : ℚ) (fs : List RawFeature) :
    List ((ℚ × ℚ) × String) :=
  fs.filterMap (specEntry lat_min lon_min lat_max lon_max)

/-- A feature whose processing in `extract_accidents` reaches a missing
field and therefore raises: a missing event type; or an accident
(tag 1) with missing coordinates; or an in-bounds accident with a
missing description. (Any other malformation is never touched by the
loop and is skipped silently.) -/
def raisesOn (lat_min lon_min lat_max lon_max : ℚ) (f : RawFeature) : Prop :=
  f.eventType = none ∨
  (f.eventType = some 1 ∧
    (f.coords = none ∨
      ∃ c, f.coords = some c ∧
        (lat_min ≤ c.1 ∧ c.1 ≤ lat_max ∧ lon_min ≤ c.2 ∧ c.2 ≤ lon_max) ∧
        f.description = none))

/-! ### Reconciliation diff (`fetch_and_notify`, src/main.py:443-453) -/

/-- The incidents reported as appeared: keys of the new mapping absent
from the old one (`for acc in new_accidents: if acc not in
CURRENT_ACCIDENTS`). -/
def appearedList (old new : List ((ℚ × ℚ) × String)) : List (ℚ × ℚ) :=
  (dictKeys new).filter (fun k => decide (k ∉ dictKeys old))

/-- The incidents reported as resolved: keys of the old mapping absent
from the new one (`for acc in CURRENT_ACCIDENTS: if acc not in
new_accidents`). -/
def resolvedList (old new : List ((ℚ × ℚ) × String)) : List (ℚ × ℚ) :=
  (dictKeys old).filter (fun k => decide (k ∉ dictKeys new))

/-! ### Tile math (`latlon_to_tile`, src/main.py:92-97, and the tile
rectangle of `fetch_and_notify`, src/main.py:412-427) -/

/-- Python `int(x)` on a float: truncation toward zero. -/
noncomputable def truncInt (x : ℝ) : ℤ := if 0 ≤ x then ⌊x⌋ else ⌈x⌉

/-- The real-valued argument of the x-tile computation:
`(lon + 180.0) / 360.0 * n` with `n = 2 ** zoom`. -/
noncomputable def mercX (lon : ℝ) (zoom : ℕ) : ℝ :=
  (lon + 180) / 360 * 2 ^ zoom

/-- The real-valued argument of the y-tile computation:
`(1.0 - log(tan(lat_rad) + 1 / cos(lat_rad)) / pi) / 2.0 * n` with
`lat_rad = radians(lat)`. -/
noncomputable def mercY (lat : ℝ) (zoom : ℕ) : ℝ :=
  (1 - Real.log (Real.tan (lat * Real.pi / 180) + 1 / Real.cos (lat * Real.pi / 180))
      / Real.pi) / 2 * 2 ^ zoom

/-- `latlon_to_tile` (src/main.py:92-97): both coordinates go through
Python's `int(...)`, i.e. truncation toward zero. -/
noncomputable def latlon_to_tile (lat lon : ℝ) (zoom : ℕ) : ℤ × ℤ :=
  (truncInt (mercX lon zoom), truncInt (mercY lat zoom))

/-- The tile rectangle computed by `fetch_and_notify`
(src/main.py:415-427) from the two corner tiles: sort per axis, add +2
to both y bounds, then swap either axis again if inverted. -/
def computeTileRect (t1 t2 : ℤ × ℤ) : (ℤ × ℤ) × (ℤ × ℤ) :=
  let xs : ℤ × ℤ := (min t1.1 t2.1, max t1.1 t2.1)
  let ys : ℤ × ℤ := (min t1.2 t2.2 + 2, max t1.2 t2.2 + 2)
  let ys2 : ℤ × ℤ := if ys.2 < ys.1 then (ys.2, ys.1) else ys
  let xs2 : ℤ × ℤ := if xs.2 < xs.1 then (xs.2, xs.1) else xs
  (xs2, ys2)

/-- The rectangle `r = ((x_min, x_max), (y_min, y_max))` contains the
tile `t` after the +2 row offset. -/
def rectHasOffsetTile (r : (ℤ × ℤ) × (ℤ × ℤ)) (t : ℤ × ℤ) : Prop :=
  r.1.1 ≤ t.1 ∧ t.1 ≤ r.1.2 ∧ r.2.1 ≤ t.2 + 2 ∧ t.2 + 2 ≤ r.2.2

/-! ### Incident snapshot persistence (src/main.py:46-51 and 464-466)

The snapshot file maps the string `f"{lat},{lon}"` to the description;
loading maps `tuple(map(float, k.split(",")))` back to the pair. The
scalar float rendering and parsing are runtime behaviour of Python
(`repr`/`float`), not code of this repository, so they enter the
round-trip theorem as an abstract pair of functions assumed comma-free
and mutually inverse — which Python's exact shortest-round-trip float
`repr` satisfies. Strings are embedded as `List Char` here so the
splitting can be reasoned about directly. -/

/-- Python `s.split(",")`. -/
def splitComma : List Char → List (List Char)
  | [] => [[]]
  | c :: rest =>
    if c = ',' then [] :: splitComma rest
    else
      match splitComma rest with
      | [] => [[c]]
      | p :: ps => (c :: p) :: ps

/-- The persisted key `f"{k[0]},{k[1]}"` for a coordinate pair, given
the scalar float renderer `fr`. -/
def renderKey (fr : ℚ → List Char) (k : ℚ × ℚ) : List Char :=
  fr k.1 ++ [','] ++ fr k.2

/-- Writing the snapshot (src/main.py:464-465): every entry's key is
rendered as `"lat,lon"`, values pass through. -/
def snapshotSave (fr : ℚ → List Char) (m : List ((ℚ × ℚ) × String)) :
    List (List Char × String) :=
  m.map (fun kv => (renderKey fr kv.1, kv.2))

/-- Parsing one persisted key (src/main.py:48):
`tuple(map(float, k.split(",")))`, given the scalar float parser `pf`.
A key that does not split into exactly two parts would produce a tuple
of a different arity in Python; that shape is unreachable for keys
written by `snapshotSave` and is mapped to `(0, 0)` here. -/
def parseKey (pf : List Char → ℚ) (s : List Char) : ℚ × ℚ :=
  match splitComma s with
  | [a, b] => (pf a, pf b)
  | _ => (0, 0)

/-- Loading the snapshot (src/main.py:46-51): every key is parsed back
to a coordinate pair, values pass through. -/
def snapshotLoad (pf : List Char → ℚ) (j : List (List Char × String)) :
    List ((ℚ × ℚ) × String) :=
  j.map (fun kv => (parseKey pf kv.1, kv.2))

/-! ## Helper lemmas -/

theorem dictLookup_dictErase_self {K V : Type} [DecidableEq K]
    (m : List (K × V)) (k : K) : dictLookup (dictErase m k) k = none := by
  induction m with
  | nil => rfl
  | cons p rest ih =>
    simp only [dictErase, List.filter_cons] at ih ⊢
    by_cases h : p.1 = k
    · simpa [h] using ih
    · simpa [dictLookup, h] using ih

theorem dictUpsert_of_not_mem {K V : Type} [DecidableEq K]
    (m : List (K × V)) (k : K) (v : V) (h : k ∉ dictKeys m) :
    dictUpsert m k v = m ++ [(k, v)] := by
  simp [dictUpsert, h]

theorem extractLoop_append (b1 b2 b3 b4 : ℚ) (xs ys : List RawFeature)
    (acc : List ((ℚ × ℚ) × String)) (h : ∀ f ∈ xs, wellFormed f) :
    extractLoop b1 b2 b3 b4 acc (xs ++ ys) =
      extractLoop b1 b2 b3 b4 (extractLoop b1 b2 b3 b4 acc xs) ys := by
  induction xs generalizing acc with
  | nil => rfl
  | cons f rest ih =>
    obtain ⟨he', hc', hd'⟩ := h f (by simp)
    obtain ⟨et, he⟩ := Option.isSome_iff_exists.mp he'
    obtain ⟨c, hc⟩ := Option.isSome_iff_exists.mp hc'
    obtain ⟨d, hd⟩ := Option.isSome_iff_exists.mp hd'
    have hrest : ∀ g ∈ rest, wellFormed g := fun g hg => h g (by simp [hg])
    simp only [List.cons_append, extractLoop, he, hc, hd]
    split_ifs <;> exact ih _ hrest

theorem extractLoop_eq_spec (b1 b2 b3 b4 : ℚ) (fs : List RawFeature)
    (acc : List ((ℚ × ℚ) × String)) (hwf : ∀ f ∈ fs, wellFormed f)
    (hnd : (dictKeys acc ++ (specExtract b1 b2 b3 b4 fs).map Prod.fst).Nodup) :
    extractLoop b1 b2 b3 b4 acc fs = acc ++ specExtract b1 b2 b3 b4 fs := by
  induction fs generalizing acc with
  | nil => simp [extractLoop, specExtract]
  | cons f rest ih =>
    obtain ⟨he', hc', hd'⟩ := hwf f (by simp)
    obtain ⟨et, he⟩ := Option.isSome_iff_exists.mp he'
    obtain ⟨c, hc⟩ := Option.isSome_iff_exists.mp hc'
    obtain ⟨d, hd⟩ := Option.isSome_iff_exists.mp hd'
    have hrest : ∀ g ∈ rest, wellFormed g := fun g hg => hwf g (by simp [hg])
    by_cases h1 : et = 1
    · by_cases h2 : b1 ≤ c.1 ∧ c.1 ≤ b3 ∧ b2 ≤ c.2 ∧ c.2 ≤ b4
      · have hspec : specExtract b1 b2 b3 b4 (f :: rest) =
            (c, d) :: specExtract b1 b2 b3 b4 rest := by
          simp [specExtract, specEntry, he, hc, hd, h1, h2]
        rw [hspec] at hnd ⊢
        have hcn : c ∉ dictKeys acc := by
          have hdisj := (List.nodup_append.mp hnd).2.2
          exact fun hmem => hdisj hmem (by simp)
        have hstep : extractLoop b1 b2 b3 b4 acc (f :: rest) =
            extractLoop b1 b2 b3 b4 (acc ++ [(c, d)]) rest := by
          simp only [extractLoop, he, hc, hd, if_pos h1, if_pos h2,
            dictUpsert_of_not_mem acc c d hcn]
        rw [hstep, ih (acc ++ [(c, d)]) hrest ?_, List.append_assoc]
        · rfl
        · simpa [dictKeys, List.append_assoc] using hnd
      · have hspec : specExtract b1 b2 b3 b4 (f :: rest) =
            specExtract b1 b2 b3 b4 rest := by
          simp [specExtract, specEntry, he, hc, hd, h1, h2]
        rw [hspec] at hnd ⊢
        have hstep : extractLoop b1 b2 b3 b4 acc (f :: rest) =
            extractLoop b1 b2 b3 b4 acc rest := by
          simp only [extractLoop, he, hc, hd, if_pos h1, if_neg h2]
        rw [hstep]
        exact ih acc hrest hnd
    · have hspec : specExtract b1 b2 b3 b4 (f :: rest) =
          specExtract b1 b2 b3 b4 rest := by
        simp [specExtract, specEntry, he, hc, hd, h1]
      rw [hspec] at hnd ⊢
      have hstep : extractLoop b1 b2 b3 b4 acc (f :: rest) =
          extractLoop b1 b2 b3 b4 acc rest := by
        simp only [extractLoop, he, hc, hd, if_neg h1]
      rw [hstep]
      exact ih acc hrest hnd

/-! ## Claim theorems -/

/-- C1: the reconciliation diff reports as appeared exactly the
`(lat, lon)` keys present in the new mapping and absent from the old
one, as resolved exactly the keys present in the old mapping and absent
from the new one — by exact pair equality — and reports nothing else. -/
theorem C1_diff_exact (old new : List ((ℚ × ℚ) × String)) (k : ℚ × ℚ) :
    (k ∈ appearedList old new ↔ k ∈ dictKeys new ∧ k ∉ dictKeys old) ∧
    (k ∈ resolvedList old new ↔ k ∈ dictKeys old ∧ k ∉ dictKeys new) := by
  constructor <;> simp [appearedList, resolvedList, List.mem_filter]

/-- C9: once the admin chat id is set (`ADMIN_CHAT_ID is not None`), any
sequence of further `set_me_as_admin` invocations leaves it unchanged,
and each such invocation replies that an administrator is already
assigned. -/
theorem C9_admin_immutable (a : AdminVal) (st : Option AdminVal) (h : st = some a)
    (calls : List (Int × Option String)) :
    calls.foldl adminStep st = some a ∧
    ∀ cid u, cmd_set_me_as_admin cid u st = (AdminReply.alreadyAssigned, some a) := by
  subst h
  refine ⟨?_, fun cid u => rfl⟩
  induction calls with
  | nil => rfl
  | cons c cs ih => simpa [adminStep, cmd_set_me_as_admin] using ih

theorem C9_admin_immutable_witness :
    [((3 : Int), (some "bob" : Option String)), ((4 : Int), none)].foldl adminStep
        (some (AdminVal.assigned 7)) = some (AdminVal.assigned 7) ∧
    cmd_set_me_as_admin 3 (some "bob") (some (AdminVal.assigned 7)) =
      (AdminReply.alreadyAssigned, some (AdminVal.assigned 7)) := by
  have h := C9_admin_immutable (AdminVal.assigned 7) (some (AdminVal.assigned 7)) rfl
    [((3 : Int), (some "bob" : Option String)), ((4 : Int), none)]
  exact ⟨h.1, h.2 3 (some "bob")⟩

/-- C10: `/actual` answers a chat id outside `USERS` with the
access-request prompt — regardless of what the incident set is, so the
reply reveals nothing about it — and changes neither the registries nor
the live incident set; an incident listing is only ever returned to an
approved chat id, and then it is the live incident set. -/
theorem C10_actual_gate (chat_id : Int) (s : RegistryState)
    (current : List ((ℚ × ℚ) × String)) (h : chat_id ∉ s.users) :
    (∀ cur : List ((ℚ × ℚ) × String),
      cmd_actual chat_id s cur = (ActualReply.accessPrompt, s, cur)) ∧
    (∀ c es, (cmd_actual c s current).1 = ActualReply.listing es →
      c ∈ s.users ∧ es = current) := by
  constructor
  · intro cur
    simp [cmd_actual, h]
  · intro c es
    unfold cmd_actual
    split_ifs with h1 h2 <;> simp_all

theorem C10_actual_gate_witness :
    cmd_actual 9 ⟨[5], [], []⟩ [((0, 1), "crash A")] =
      (ActualReply.accessPrompt, ⟨[5], [], []⟩, [((0, 1), "crash A")]) ∧
    ((5 : Int) ∈ (⟨[5], [], []⟩ : RegistryState).users ∧
      [((0, 1), "crash A")] = [(((0 : ℚ), (1 : ℚ)), "crash A")]) := by
  have h := C10_actual_gate 9 ⟨[5], [], []⟩ [((0, 1), "crash A")] (by decide)
  exact ⟨h.1 [((0, 1), "crash A")], h.2 5 [((0, 1), "crash A")] (by decide)⟩

/-- C4: for a handle whose normalization is pending with chat id `cid`,
the first `approve_user` succeeds, removes the handle from `pending`,
leaves `known` alone, and appends `cid` to `USERS` only if absent (so
no duplicate is created and uniqueness is preserved); a second
`approve_user` with the same handle fails `notPending` and changes
nothing. Likewise `deny_user`: first call succeeds and only removes the
pending entry; second call fails `notPending` and changes nothing. -/
theorem C4_approve_deny_idem (s : RegistryState) (u : String) (cid : Int)
    (h : dictLookup s.pending (normalize_username u) = some cid) :
    (approve_user u s).1 = RegOutcome.success ∧
    (approve_user u s).2.pending = dictErase s.pending (normalize_username u) ∧
    (approve_user u s).2.known = s.known ∧
    (approve_user u s).2.users =
      (if cid ∈ s.users then s.users else s.users ++ [cid]) ∧
    cid ∈ (approve_user u s).2.users ∧
    (s.users.Nodup → (approve_user u s).2.users.Nodup) ∧
    approve_user u (approve_user u s).2 =
      (RegOutcome.notPending, (approve_user u s).2) ∧
    (deny_user u s).1 = RegOutcome.success ∧
    (deny_user u s).2 = { s with pending := dictErase s.pending (normalize_username u) } ∧
    deny_user u (deny_user u s).2 = (RegOutcome.notPending, (deny_user u s).2) := by
  have happ : approve_user u s =
      (RegOutcome.success,
       { s with pending := dictErase s.pending (normalize_username u),
                users := if cid ∈ s.users then s.users else s.users ++ [cid] }) := by
    simp [approve_user, h]
  have hden : deny_user u s =
      (RegOutcome.success,
       { s with pending := dictErase s.pending (normalize_username u) }) := by
    simp [deny_user, h]
  have herase := dictLookup_dictErase_self s.pending (normalize_username u)
  refine ⟨by simp [happ], by simp [happ], by simp [happ], by simp [happ], ?_, ?_, ?_,
    by simp [hden], by simp [hden], ?_⟩
  · simp only [happ]
    by_cases hm : cid ∈ s.users <;> simp [hm]
  · intro hnd
    simp only [happ]
    by_cases hm : cid ∈ s.users <;> simp [hm, hnd, List.nodup_append, hnd]
  · rw [happ]
    simp [approve_user, herase]
  · rw [hden]
    simp [deny_user, herase]

theorem C4_approve_deny_idem_witness :
    (approve_user "Bob" ⟨[], [("bob", 42)], [("bob", 42)]⟩).1 = RegOutcome.success ∧
    (approve_user "Bob" ⟨[], [("bob", 42)], [("bob", 42)]⟩).2.pending =
      dictErase [("bob", 42)] (normalize_username "Bob") ∧
    (approve_user "Bob" ⟨[], [("bob", 42)], [("bob", 42)]⟩).2.known = [("bob", 42)] ∧
    (approve_user "Bob" ⟨[], [("bob", 42)], [("bob", 42)]⟩).2.users =
      (if (42 : Int) ∈ ([] : List Int) then ([] : List Int) else [] ++ [42]) ∧
    (42 : Int) ∈ (approve_user "Bob" ⟨[], [("bob", 42)], [("bob", 42)]⟩).2.users ∧
    (approve_user "Bob" ⟨[], [("bob", 42)], [("bob", 42)]⟩).2.users.Nodup ∧
    approve_user "Bob" (approve_user "Bob" ⟨[], [("bob", 42)], [("bob", 42)]⟩).2 =
      (RegOutcome.notPending, (approve_user "Bob" ⟨[], [("bob", 42)], [("bob", 42)]⟩).2) ∧
    (deny_user "Bob" ⟨[], [("bob", 42)], [("bob", 42)]⟩).1 = RegOutcome.success ∧
    (deny_user "Bob" ⟨[], [("bob", 42)], [("bob", 42)]⟩).2 =
      { users := [], pending := dictErase [("bob", 42)] (normalize_username "Bob"),
        known := [("bob", 42)] } ∧
    deny_user "Bob" (deny_user "Bob" ⟨[], [("bob", 42)], [("bob", 42)]⟩).2 =
      (RegOutcome.notPending, (deny_user "Bob" ⟨[], [("bob", 42)], [("bob", 42)]⟩).2) := by
  have h := C4_approve_deny_idem ⟨[], [("bob", 42)], [("bob", 42)]⟩ "Bob" 42 (by decide)
  exact ⟨h.1, h.2.1, h.2.2.1, h.2.2.2.1, h.2.2.2.2.1,
    h.2.2.2.2.2.1 (by decide), h.2.2.2.2.2.2.1, h.2.2.2.2.2.2.2.1,
    h.2.2.2.2.2.2.2.2.1, h.2.2.2.2.2.2.2.2.2⟩

/-- C5 counterexample: the claim says an already-subscribed caller's
`/start` changes no state (`approved`, `pending` and `known` all
unchanged), but `cmd_start` upserts `KNOWN_USERS` before the
already-subscribed check: with `USERS = [5]` and empty `KNOWN_USERS`, a
`/start` from chat id 5 with handle `alice` replies already-subscribed
yet records `("alice", 5)` in `known`. -/
theorem C5_counterexample :
    (cmd_start (some "alice") 5 none ⟨[5], [], []⟩).1 = StartResult.alreadySubscribed ∧
    (cmd_start (some "alice") 5 none ⟨[5], [], []⟩).2 ≠ (⟨[5], [], []⟩ : RegistryState) ∧
    (cmd_start (some "alice") 5 none ⟨[5], [], []⟩).2.known = [("alice", 5)] := by
  decide

/-- C5 (amended): if the caller's chat id is already in `approved`,
`cmd_start` replies already-subscribed and leaves `approved` and
`pending` exactly as they were, but `known` has the caller's handle
upserted (this upsert happens before the check, for every caller). -/
theorem C5_already_subscribed (u0 : Option String) (chat_id : Int)
    (adminChat : Option Int) (s : RegistryState) (h : chat_id ∈ s.users) :
    cmd_start u0 chat_id adminChat s =
      (StartResult.alreadySubscribed,
       { s with known := dictUpsert s.known (startName u0 chat_id) chat_id }) := by
  simp [cmd_start, h]

theorem C5_already_subscribed_witness :
    cmd_start (some "alice") 5 none ⟨[5], [], []⟩ =
      (StartResult.alreadySubscribed,
       { users := [5], pending := [],
         known := dictUpsert [] (startName (some "alice") 5) 5 }) :=
  C5_already_subscribed (some "alice") 5 none ⟨[5], [], []⟩ (by decide)

/-- C6 counterexample: with `bob` recorded in `known` with chat id `0`
and `approved` empty, the claim requires `NotSubscribed` (`bob` is
known and `0` is not approved), but the source's `if not chat_id:`
treats the falsy chat id `0` like an absent handle and `cmd_revoke`
answers `unknownHandle`. -/
theorem C6_counterexample :
    dictLookup (⟨[], [], [("bob", 0)]⟩ : RegistryState).known
      (normalize_username "bob") = some 0 ∧
    (0 : Int) ∉ (⟨[], [], [("bob", 0)]⟩ : RegistryState).users ∧
    (cmd_revoke "bob" ⟨[], [], [("bob", 0)]⟩).1 = RevokeResult.unknownHandle := by
  decide

/-- C6 (amended): `cmd_revoke` fails `unknownHandle` when the
normalized handle is absent from `known` and also when its recorded
chat id is `0` (Python truthiness); for a nonzero recorded chat id it
fails `notSubscribed` when that id is not in `approved`; in every
failure case all registries are unchanged; otherwise it removes the
chat id from `approved` (for a duplicate-free `approved`, the id is
gone) and succeeds. -/
theorem C6_revoke_cases (s : RegistryState) (u : String) :
    (dictLookup s.known (normalize_username u) = none →
      cmd_revoke u s = (RevokeResult.unknownHandle, s)) ∧
    (dictLookup s.known (normalize_username u) = some 0 →
      cmd_revoke u s = (RevokeResult.unknownHandle, s)) ∧
    (∀ cid : Int, dictLookup s.known (normalize_username u) = some cid → cid ≠ 0 →
      cid ∉ s.users → cmd_revoke u s = (RevokeResult.notSubscribed, s)) ∧
    (∀ cid : Int, dictLookup s.known (normalize_username u) = some cid → cid ≠ 0 →
      cid ∈ s.users →
      cmd_revoke u s = (RevokeResult.revoked, { s with users := s.users.erase cid }) ∧
      (s.users.Nodup → cid ∉ s.users.erase cid)) := by
  refine ⟨fun h => by simp [cmd_revoke, h], fun h => by simp [cmd_revoke, h],
    fun cid h hz hm => by simp [cmd_revoke, h, hz, hm], fun cid h hz hm => ⟨?_, ?_⟩⟩
  · simp [cmd_revoke, h, hz, hm]
  · intro hnd hmem
    exact absurd rfl ((List.Nodup.mem_erase_iff hnd).mp hmem).1

theorem C6_revoke_cases_witness :
    cmd_revoke "bob" ⟨[7], [], [("bob", 7)]⟩ =
      (RevokeResult.revoked,
       { users := ([7] : List Int).erase 7, pending := [], known := [("bob", 7)] }) ∧
    (7 : Int) ∉ ([7] : List Int).erase 7 ∧
    cmd_revoke "carol" ⟨[7], [], [("bob", 7)]⟩ =
      (RevokeResult.unknownHandle, ⟨[7], [], [("bob", 7)]⟩) := by
  have h := C6_revoke_cases ⟨[7], [], [("bob", 7)]⟩ "bob"
  have h2 := C6_revoke_cases ⟨[7], [], [("bob", 7)]⟩ "carol"
  have hc := h.2.2.2 7 (by decide) (by decide) (by decide)
  exact ⟨hc.1, hc.2 (by decide), h2.1 (by decide)⟩

/-- C2: on a tile whose features are all well-formed (no missing or
wrongly-typed fields) and whose extracted keys are distinct (map
semantics), `extract_accidents` returns exactly the mapping of the
`(lat, lon) -> description` pairs of the eventType-1 features inside
the inclusive bounding box; non-accident and out-of-bounds features
contribute nothing. -/
theorem C2_extract_exact (b1 b2 b3 b4 : ℚ) (fs : List RawFeature)
    (hwf : ∀ f ∈ fs, wellFormed f)
    (hnd : ((specExtract b1 b2 b3 b4 fs).map Prod.fst).Nodup) :
    extract_accidents (.payload fs) b1 b2 b3 b4 = specExtract b1 b2 b3 b4 fs := by
  have h := extractLoop_eq_spec b1 b2 b3 b4 fs [] hwf (by simpa [dictKeys] using hnd)
  simpa [extract_accidents] using h

theorem C2_extract_exact_witness :
    specExtract 0 0 1 1
      [⟨some 1, some (1/2, 1/2), some "crash A"⟩,
       ⟨some 2, some (1/2, 1/2), some "other"⟩] =
      [(((1 : ℚ)/2, (1 : ℚ)/2), "crash A")] ∧
    extract_accidents
      (TilePayload.payload
        [⟨some 1, some (1/2, 1/2), some "crash A"⟩,
         ⟨some 2, some (1/2, 1/2), some "other"⟩]) 0 0 1 1 =
    specExtract 0 0 1 1
      [⟨some 1, some (1/2, 1/2), some "crash A"⟩,
       ⟨some 2, some (1/2, 1/2), some "other"⟩] :=
  ⟨by norm_num [specExtract, specEntry, List.filterMap_cons, List.filterMap_nil],
   C2_extract_exact 0 0 1 1 _ (by decide)
     (by norm_num [specExtract, specEntry, List.filterMap_cons, List.filterMap_nil])⟩

/-- C3 counterexample: the claim says a malformed feature is skipped
alone and every well-formed accident feature of the same tile is still
extracted, but the source's `try` wraps the whole feature loop: after
the malformed first feature, the well-formed in-bounds accident that
follows it is lost and extraction returns the empty mapping. -/
theorem C3_counterexample :
    extract_accidents
      (TilePayload.payload
        [⟨none, none, none⟩, ⟨some 1, some (0, 1), some "crash B"⟩]) 0 0 1 1 = [] ∧
    wellFormed ⟨some 1, some (0, 1), some "crash B"⟩ ∧
    specEntry 0 0 1 1 ⟨some 1, some (0, 1), some "crash B"⟩ =
      some ((0, 1), "crash B") := by
  refine ⟨rfl, by decide, by decide⟩

/-- C3 (amended): a malformed feature does not raise out of
`extract_accidents` and does not fail the whole tile, but it ends the
scan of that tile: extraction returns exactly the accidents collected
from the features before it, and the remaining features are dropped. A
wholly absent or malformed tile payload yields the empty mapping. -/
theorem C3_malformed_ends_scan (b1 b2 b3 b4 : ℚ) (pre rest : List RawFeature)
    (f : RawFeature) (hpre : ∀ g ∈ pre, wellFormed g)
    (hf : raisesOn b1 b2 b3 b4 f) :
    extract_accidents (.payload (pre ++ f :: rest)) b1 b2 b3 b4 =
      extract_accidents (.payload pre) b1 b2 b3 b4 ∧
    extract_accidents .malformed b1 b2 b3 b4 = [] := by
  refine ⟨?_, rfl⟩
  simp only [extract_accidents]
  rw [extractLoop_append b1 b2 b3 b4 pre (f :: rest) [] hpre]
  rcases hf with hf | ⟨h1, hf⟩
  · simp [extractLoop, hf]
  · rcases hf with hc | ⟨c, hc, hb, hd⟩
    · simp [extractLoop, h1, hc]
    · simp only [extractLoop, h1, hc, reduceIte]
      rw [if_pos hb]
      simp [hd]

theorem C3_malformed_ends_scan_witness :
    extract_accidents
      (TilePayload.payload
        ([⟨some 1, some (0, 0), some "crash A"⟩] ++
          ⟨none, none, none⟩ :: [⟨some 1, some (0, 1), some "crash B"⟩])) 0 0 1 1 =
      extract_accidents
        (TilePayload.payload [⟨some 1, some (0, 0), some "crash A"⟩]) 0 0 1 1 ∧
    extract_accidents TilePayload.malformed 0 0 1 1 = [] :=
  C3_malformed_ends_scan 0 0 1 1 [⟨some 1, some (0, 0), some "crash A"⟩]
    [⟨some 1, some (0, 1), some "crash B"⟩] ⟨none, none, none⟩ (by decide) (Or.inl rfl)

theorem truncInt_eq_floor (x : ℝ) (h : 0 ≤ x) : truncInt x = ⌊x⌋ := if_pos h

theorem computeTileRect_contains (t1 t2 : ℤ × ℤ) :
    rectHasOffsetTile (computeTileRect t1 t2) t1 ∧
    rectHasOffsetTile (computeTileRect t1 t2) t2 := by
  obtain ⟨a, b⟩ := t1
  obtain ⟨c, d⟩ := t2
  simp only [computeTileRect, rectHasOffsetTile, min_def, max_def]
  split_ifs <;> simp_all <;> omega

/-- C7 counterexample: the claim asserts `x = floor((lon+180)/360 * 2^z)`
for every bounding box with sorted corners, but the source computes
`int(...)`, which truncates toward zero: at `lon = -190`, `zoom = 1`
the argument is `-1/18`, the code yields tile x `0` while the claimed
floor is `-1`. -/
theorem C7_counterexample :
    (latlon_to_tile 0 (-190) 1).1 = 0 ∧ ⌊mercX (-190) 1⌋ = -1 := by
  have hx : mercX (-190 : ℝ) 1 = -1 / 18 := by
    unfold mercX
    norm_num
  constructor
  · show truncInt (mercX (-190 : ℝ) 1) = 0
    rw [hx, truncInt, if_neg (by norm_num)]
    rw [Int.ceil_eq_iff]
    constructor <;> norm_num
  · rw [hx]
    rw [Int.floor_eq_iff]
    constructor <;> norm_num

/-- C7 (amended): `latlon_to_tile` computes the claimed Web-Mercator
floor formulas whenever the two real-valued arguments are nonnegative
(Python `int` truncates toward zero, which equals floor exactly on
nonnegative arguments — in particular throughout the layer's usable
latitude/longitude range); and, for all inputs, the tile rectangle of
`fetch_and_notify` — per-axis sort, +2 on both y bounds, re-sort —
contains the tile coordinates of both bounding-box corners after the +2
row offset. -/
theorem C7_tile_formulas_and_cover (lat1 lon1 lat2 lon2 : ℝ) (zoom : ℕ)
    (_hz : 0 < zoom)
    (h1 : 0 ≤ mercX lon1 zoom) (h2 : 0 ≤ mercY lat1 zoom)
    (h3 : 0 ≤ mercX lon2 zoom) (h4 : 0 ≤ mercY lat2 zoom) :
    latlon_to_tile lat1 lon1 zoom = (⌊mercX lon1 zoom⌋, ⌊mercY lat1 zoom⌋) ∧
    latlon_to_tile lat2 lon2 zoom = (⌊mercX lon2 zoom⌋, ⌊mercY lat2 zoom⌋) ∧
    rectHasOffsetTile
      (computeTileRect (latlon_to_tile lat1 lon1 zoom) (latlon_to_tile lat2 lon2 zoom))
      (latlon_to_tile lat1 lon1 zoom) ∧
    rectHasOffsetTile
      (computeTileRect (latlon_to_tile lat1 lon1 zoom) (latlon_to_tile lat2 lon2 zoom))
      (latlon_to_tile lat2 lon2 zoom) := by
  refine ⟨?_, ?_, (computeTileRect_contains _ _).1, (computeTileRect_contains _ _).2⟩
  · unfold latlon_to_tile
    rw [truncInt_eq_floor _ h1, truncInt_eq_floor _ h2]
  · unfold latlon_to_tile
    rw [truncInt_eq_floor _ h3, truncInt_eq_floor _ h4]

theorem C7_tile_formulas_and_cover_witness :
    latlon_to_tile 0 0 1 = (⌊mercX 0 1⌋, ⌊mercY 0 1⌋) ∧
    latlon_to_tile 0 0 1 = (⌊mercX 0 1⌋, ⌊mercY 0 1⌋) ∧
    rectHasOffsetTile (computeTileRect (latlon_to_tile 0 0 1) (latlon_to_tile 0 0 1))
      (latlon_to_tile 0 0 1) ∧
    rectHasOffsetTile (computeTileRect (latlon_to_tile 0 0 1) (latlon_to_tile 0 0 1))
      (latlon_to_tile 0 0 1) := by
  have hx : (0 : ℝ) ≤ mercX 0 1 := by
    unfold mercX
    norm_num
  have hy : (0 : ℝ) ≤ mercY 0 1 := by
    unfold mercY
    norm_num [Real.tan_zero, Real.cos_zero, Real.log_one]
  exact C7_tile_formulas_and_cover 0 0 0 0 1 one_pos hx hy hx hy

theorem splitComma_of_not_mem (xs : List Char) (h : ',' ∉ xs) :
    splitComma xs = [xs] := by
  induction xs with
  | nil => rfl
  | cons c rest ih =>
    have hc : ¬(c = ',') := fun hcc => h (by simp [hcc])
    have hr : ',' ∉ rest := fun hm => h (by simp [hm])
    simp [splitComma, hc, ih hr]

theorem splitComma_append (xs ys : List Char) (h : ',' ∉ xs) :
    splitComma (xs ++ ',' :: ys) = xs :: splitComma ys := by
  induction xs with
  | nil => simp [splitComma]
  | cons c rest ih =>
    have hc : ¬(c = ',') := fun hcc => h (by simp [hcc])
    have hr : ',' ∉ rest := fun hm => h (by simp [hm])
    simp [splitComma, hc, ih hr]

theorem parseKey_renderKey (fr : ℚ → List Char) (pf : List Char → ℚ)
    (hinv : ∀ x, pf (fr x) = x) (hcomma : ∀ x, ',' ∉ fr x) (k : ℚ × ℚ) :
    parseKey pf (renderKey fr k) = k := by
  unfold parseKey renderKey
  rw [List.append_assoc, List.singleton_append,
    splitComma_append _ _ (hcomma k.1), splitComma_of_not_mem _ (hcomma k.2)]
  simp [hinv]

/-- C8: writing the incident snapshot (each key rendered as the string
`"lat,lon"`) and parsing it back (split on the comma, parse both
scalars) reproduces the original identity → description mapping
exactly, for any scalar float rendering `fr` and parsing `pf` that are
mutually inverse and comma-free — as Python's exact round-tripping
float `repr` / `float()` are. -/
theorem C8_snapshot_roundtrip (fr : ℚ → List Char) (pf : List Char → ℚ)
    (hinv : ∀ x, pf (fr x) = x) (hcomma : ∀ x, ',' ∉ fr x)
    (m : List ((ℚ × ℚ) × String)) :
    snapshotLoad pf (snapshotSave fr m) = m := by
  induction m with
  | nil => rfl
  | cons kv rest ih =>
    simp only [snapshotSave, snapshotLoad, List.map_cons] at ih ⊢
    rw [parseKey_renderKey fr pf hinv hcomma kv.1, ih]

theorem C8_snapshot_roundtrip_witness :
    snapshotLoad (fun s => ((Encodable.decode s.length : Option ℚ)).getD 0)
      (snapshotSave (fun q => List.replicate (Encodable.encode q) 'x')
        [((0, 1), "crash A"), ((2, 3), "crash B")]) =
      [((0, 1), "crash A"), ((2, 3), "crash B")] :=
  C8_snapshot_roundtrip (fun q => List.replicate (Encodable.encode q) 'x')
    (fun s => ((Encodable.decode s.length : Option ℚ)).getD 0)
    (fun x => by simp [Encodable.encodek])
    (fun x => by simp [List.mem_replicate])
    [((0, 1), "crash A"), ((2, 3), "crash B")]
